import Mathlib

/-!
Verification of the `matchbox_nostr` repository: the GGRS rollback-netcode
adapter (`matchbox_socket_nostr/src/ggrs_socket.rs`) and the engine resource
commands (`bevy_matchbox_nostr/src/lib.rs`).

The embedding is shallow: Rust structs become Lean structures, the channel
plurality phantom type parameter becomes an explicit data field, fallible or
panicking operations return `Option`, and machine integers become `Nat` with
explicit bounds where they matter. `PeerId` (an opaque, totally ordered
identifier in the source) is modelled as `Nat`. Rust's `Vec::sort` (a stable
ascending sort by the total order) is embedded as `List.insertionSort (· ≤ ·)`;
on a total antisymmetric order every sort produces the same (unique) sorted
permutation, so this choice is observationally identical to the source's sort.
-/

/-- Peer identifier: an opaque, comparable, totally ordered id, modelled as
`Nat`. -/
abbrev PeerId := Nat

/-- The `ggrs::PlayerType` classification returned by `players()`: the local
participant or a remote participant identified by its `PeerId`. -/
inductive PlayerType where
  | Local : PlayerType
  | Remote : PeerId → PlayerType
deriving DecidableEq

/-- The facet of the `WebRtcSocket` runtime state read by `players()`:
`id()` (the socket's own identity, `none` until resolved by the message loop)
and `connected_peers()` (the peers currently in `Connected` state, in
unspecified enumeration order). -/
structure WebRtcSocketState where
  ownId : Option PeerId
  connectedPeers : List PeerId
deriving DecidableEq

/-- Embedding of `WebRtcSocket::players` (ggrs_socket.rs lines 69-95):
if `id()` is unresolved return `[Local]`; otherwise collect
`connected_peers()` chained with the own id, sort ascending, and map each id
to `Local` (own id) or `Remote(id)`. -/
def players (s : WebRtcSocketState) : List PlayerType :=
  match s.ownId with
  | none => [PlayerType.Local]
  | some ourId =>
    let ids := List.insertionSort (· ≤ ·) (s.connectedPeers ++ [ourId])
    ids.map (fun id => if id = ourId then PlayerType.Local else PlayerType.Remote id)

/-- Spec-side restatement of the resolved-identity branch of `players()`
(spec section 4.5): take the union of the connected peers and the own id
`p0` — written as the list `p0 :: peers`, which enumerates that union exactly
when `p0 ∉ peers` and `peers` has no duplicates — sort it ascending by the
`PeerId` total order, and map each id to `Local`/`Remote`. -/
def playersSpec (p0 : PeerId) (peers : List PeerId) : List PlayerType :=
  (List.insertionSort (· ≤ ·) (p0 :: peers)).map
    (fun q => if q = p0 then PlayerType.Local else PlayerType.Remote q)

/-- The participant id carried by one `players()` entry, reading `Local` as
the observing socket's own id `p0`. -/
def entryId (p0 : PeerId) : PlayerType → PeerId
  | PlayerType.Local => p0
  | PlayerType.Remote q => q

/-- Sorting two lists that are permutations of each other by the `Nat` total
order yields the same list: the sorted permutation is unique. -/
theorem insertionSort_congr_perm {l1 l2 : List Nat} (h : l1.Perm l2) :
    List.insertionSort (· ≤ ·) l1 = List.insertionSort (· ≤ ·) l2 :=
  List.eq_of_perm_of_sorted
    ((List.perm_insertionSort _ l1).trans (h.trans (List.perm_insertionSort _ l2).symm))
    (List.sorted_insertionSort _ l1) (List.sorted_insertionSort _ l2)

/-- Mapping each sorted id through the `Local`/`Remote` marking and then
reading back the carried id is the identity. -/
theorem map_entryId_mark (p0 : PeerId) : ∀ l : List PeerId,
    (l.map (fun q => if q = p0 then PlayerType.Local else PlayerType.Remote q)).map
      (entryId p0) = l
  | [] => rfl
  | q :: l => by
    by_cases hq : q = p0 <;> simp [entryId, hq, map_entryId_mark p0 l]

/-- The number of `Local` entries produced by the marking map equals the
number of occurrences of the own id in the id list. -/
theorem count_local_map_mark (p0 : PeerId) : ∀ l : List PeerId,
    ((l.map (fun q => if q = p0 then PlayerType.Local else PlayerType.Remote q)).count
      PlayerType.Local) = l.count p0
  | [] => rfl
  | q :: l => by
    by_cases hq : q = p0 <;>
      simp [List.count_cons, hq, count_local_map_mark p0 l]

/-- The resolved-identity branch of `players` in closed form. -/
theorem players_resolved_form (s : WebRtcSocketState) (p0 : PeerId)
    (h : s.ownId = some p0) :
    players s = (List.insertionSort (· ≤ ·) (s.connectedPeers ++ [p0])).map
      (fun q => if q = p0 then PlayerType.Local else PlayerType.Remote q) := by
  simp [players, h]

/-- The marked player list of a resolved socket holds exactly one `Local`
entry when the own id is not among the connected peers. -/
theorem count_local_players (s : WebRtcSocketState) (p0 : PeerId)
    (h : s.ownId = some p0) (hnp : p0 ∉ s.connectedPeers) :
    (players s).count PlayerType.Local = 1 := by
  rw [players_resolved_form s p0 h, count_local_map_mark,
    (List.perm_insertionSort _ _).count_eq]
  simp [List.count_append, List.count_eq_zero_of_not_mem hnp]

/-- C1: for a socket whose identity is resolved to `p0`, `players()` is the
union of the connected peers and `p0`, sorted ascending by the `PeerId`
order, each id mapped to `Local` (own id) or `Remote(id)`. The hypotheses
`p0 ∉ peers` and `peers.Nodup` make the list `p0 :: peers` used by
`playersSpec` an exact enumeration of that union. -/
theorem players_resolved_eq_spec (s : WebRtcSocketState) (p0 : PeerId)
    (h : s.ownId = some p0) (_hnp : p0 ∉ s.connectedPeers)
    (_hnd : s.connectedPeers.Nodup) :
    players s = playersSpec p0 s.connectedPeers := by
  rw [players_resolved_form s p0 h, playersSpec,
    insertionSort_congr_perm (List.perm_append_singleton p0 s.connectedPeers)]

/-- C1 counterexample: with own id 0 and connected peers `[1, 3]` the adapter
does not report `[Remote 1, Local, Remote 3]` (the example given in the
spec); sorting `{0, 1, 3}` puts the own id 0 first, so `Local` is the first
entry. -/
theorem players_example_counterexample :
    players ⟨some 0, [1, 3]⟩ ≠
      [PlayerType.Remote 1, PlayerType.Local, PlayerType.Remote 3] := by
  decide

/-- C1 witness: with own id 0 and connected peers `[1, 3]` the adapter
reports `[Local, Remote 1, Remote 3]`, matching the spec-side function. -/
theorem players_resolved_eq_spec_witness :
    players ⟨some 0, [1, 3]⟩ = playersSpec 0 [1, 3] ∧
    playersSpec 0 [1, 3] = [PlayerType.Local, PlayerType.Remote 1, PlayerType.Remote 3] :=
  ⟨players_resolved_eq_spec ⟨some 0, [1, 3]⟩ 0 rfl (by decide) (by decide), by decide⟩

/-- C3: before identity resolution, `players()` is exactly `[Local]`,
whatever `connected_peers()` holds. -/
theorem players_unresolved (s : WebRtcSocketState) (h : s.ownId = none) :
    players s = [PlayerType.Local] := by
  simp [players, h]

/-- C3 witness: an unresolved socket that already lists connected peers still
reports only `[Local]`. -/
theorem players_unresolved_witness :
    players ⟨none, [5, 2, 9]⟩ = [PlayerType.Local] :=
  players_unresolved ⟨none, [5, 2, 9]⟩ rfl

/-- C4: for a resolved socket whose own id is not among the connected peers,
`players()` holds exactly one `Local` entry, and every other entry is
`Remote q` for some `q` drawn from `connected_peers()` and distinct from the
own id. -/
theorem players_exactly_one_local (s : WebRtcSocketState) (p0 : PeerId)
    (h : s.ownId = some p0) (hnp : p0 ∉ s.connectedPeers) :
    (players s).count PlayerType.Local = 1 ∧
    ∀ e ∈ players s, e = PlayerType.Local ∨
      ∃ q, q ∈ s.connectedPeers ∧ q ≠ p0 ∧ e = PlayerType.Remote q := by
  refine ⟨count_local_players s p0 h hnp, ?_⟩
  intro e he
  rw [players_resolved_form s p0 h] at he
  rcases List.mem_map.mp he with ⟨q, hq, rfl⟩
  have hq' : q ∈ s.connectedPeers ++ [p0] :=
    (List.perm_insertionSort _ _).mem_iff.mp hq
  by_cases hq0 : q = p0
  · left
    simp [hq0]
  · right
    refine ⟨q, ?_, hq0, by simp [hq0]⟩
    rcases List.mem_append.mp hq' with hmem | hmem
    · exact hmem
    · exact absurd (List.mem_singleton.mp hmem) hq0

/-- C4 witness: with own id 2 and connected peers `[7, 1]` the returned list
holds one `Local` and otherwise `Remote` entries from the peer set. -/
theorem players_exactly_one_local_witness :
    (players ⟨some 2, [7, 1]⟩).count PlayerType.Local = 1 ∧
    ∀ e ∈ players ⟨some 2, [7, 1]⟩, e = PlayerType.Local ∨
      ∃ q, q ∈ [7, 1] ∧ q ≠ 2 ∧ e = PlayerType.Remote q :=
  players_exactly_one_local ⟨some 2, [7, 1]⟩ 2 rfl (by decide)

/-- C2: two sockets whose own id plus connected peers enumerate the same
total participant set compute `players()` lists of the same length carrying
the same id at every position; the lists can differ only at positions where
one marks `Local` and the other `Remote`, and (own id absent from the peer
lists) each list marks exactly one position `Local`. -/
theorem players_ordering_peer_independent (s1 s2 : WebRtcSocketState)
    (p1 p2 : PeerId) (h1 : s1.ownId = some p1) (h2 : s2.ownId = some p2)
    (hperm : (p1 :: s1.connectedPeers).Perm (p2 :: s2.connectedPeers))
    (hnp1 : p1 ∉ s1.connectedPeers) (hnp2 : p2 ∉ s2.connectedPeers) :
    (players s1).length = (players s2).length ∧
    (players s1).map (entryId p1) = (players s2).map (entryId p2) ∧
    (players s1).count PlayerType.Local = 1 ∧
    (players s2).count PlayerType.Local = 1 ∧
    ∀ (i : Nat) (a b : PlayerType), (players s1)[i]? = some a →
      (players s2)[i]? = some b → a ≠ b →
      (a = PlayerType.Local ∧ ∃ q, b = PlayerType.Remote q) ∨
      (b = PlayerType.Local ∧ ∃ q, a = PlayerType.Remote q) := by
  have hsort : List.insertionSort (· ≤ ·) (s1.connectedPeers ++ [p1]) =
      List.insertionSort (· ≤ ·) (s2.connectedPeers ++ [p2]) :=
    insertionSort_congr_perm
      ((List.perm_append_singleton p1 s1.connectedPeers).trans
        (hperm.trans (List.perm_append_singleton p2 s2.connectedPeers).symm))
  have hmap : (players s1).map (entryId p1) = (players s2).map (entryId p2) := by
    rw [players_resolved_form s1 p1 h1, players_resolved_form s2 p2 h2,
      map_entryId_mark, map_entryId_mark, hsort]
  refine ⟨?_, hmap, count_local_players s1 p1 h1 hnp1,
    count_local_players s2 p2 h2 hnp2, ?_⟩
  · have hlen := congrArg List.length hmap
    simpa using hlen
  · intro i a b ha hb hab
    have hpt : ((players s1).map (entryId p1))[i]? =
        ((players s2).map (entryId p2))[i]? := by rw [hmap]
    rw [List.getElem?_map, List.getElem?_map, ha, hb] at hpt
    cases a with
    | Local =>
      cases b with
      | Local => exact absurd rfl hab
      | Remote qb => exact Or.inl ⟨rfl, qb, rfl⟩
    | Remote qa =>
      cases b with
      | Local => exact Or.inr ⟨rfl, qa, rfl⟩
      | Remote qb =>
        have hq : qa = qb := by simpa [entryId] using hpt
        subst hq
        exact absurd rfl hab

/-- C2 witness: sockets with own ids 0 and 1 over the common participant set
`{0, 1, 3}` agree on length, per-position ids, and a unique `Local` mark. -/
theorem players_ordering_peer_independent_witness :
    (players ⟨some 0, [1, 3]⟩).length = (players ⟨some 1, [0, 3]⟩).length ∧
    (players ⟨some 0, [1, 3]⟩).map (entryId 0) =
      (players ⟨some 1, [0, 3]⟩).map (entryId 1) ∧
    (players ⟨some 0, [1, 3]⟩).count PlayerType.Local = 1 ∧
    (players ⟨some 1, [0, 3]⟩).count PlayerType.Local = 1 ∧
    ∀ (i : Nat) (a b : PlayerType), (players ⟨some 0, [1, 3]⟩)[i]? = some a →
      (players ⟨some 1, [0, 3]⟩)[i]? = some b → a ≠ b →
      (a = PlayerType.Local ∧ ∃ q, b = PlayerType.Remote q) ∨
      (b = PlayerType.Local ∧ ∃ q, a = PlayerType.Remote q) :=
  players_ordering_peer_independent ⟨some 0, [1, 3]⟩ ⟨some 1, [0, 3]⟩ 0 1
    rfl rfl (by decide) (by decide) (by decide)

/-- Modelled from the spec: the rollback library's in-memory message type
(`ggrs::Message`) is owned by the excluded rollback-netcode collaborator;
the spec treats it as "a fixed binary message encoding" target. It is
modelled as a representative enum of rollback protocol messages whose
numeric fields are machine integers (here `Nat` with explicit `< 2^32`
well-formedness bounds) and whose input payload is a byte list. -/
inductive Message where
  | keepAlive : Message
  | syncRequest : Nat → Message
  | syncReply : Nat → Message
  | input : Nat → List Nat → Message
  | inputAck : Nat → Message
  | qualityReport : Nat → Nat → Message
deriving DecidableEq

/-- Well-formedness of an in-memory message: every numeric field fits in 32
bits and the payload is a byte list of 32-bit length, mirroring the `u32`
fields of the source message type. -/
def wfMessage : Message → Bool
  | Message.keepAlive => true
  | Message.syncRequest r => r < 4294967296
  | Message.syncReply r => r < 4294967296
  | Message.input f bs =>
      decide (f < 4294967296) && decide (bs.length < 4294967296) &&
        bs.all (fun b => b < 256)
  | Message.inputAck f => f < 4294967296
  | Message.qualityReport fa p => decide (fa < 4294967296) && decide (p < 4294967296)

/-- Little-endian 4-byte encoding of a 32-bit value, mirroring the fixed-size
integer layout of the excluded binary encoding library. -/
def enc32 (n : Nat) : List Nat :=
  [n % 256, n / 256 % 256, n / 65536 % 256, n / 16777216 % 256]

/-- Reads a little-endian 4-byte value from the front of a byte list,
returning the value and the remaining bytes; fails on a short list. -/
def dec32 : List Nat → Option (Nat × List Nat)
  | b0 :: b1 :: b2 :: b3 :: rest =>
      some (b0 + 256 * b1 + 65536 * b2 + 16777216 * b3, rest)
  | _ => none

/-- Reading back a 4-byte encoding recovers the encoded 32-bit value and
leaves the trailing bytes untouched. -/
theorem dec32_enc32 (n : Nat) (hn : n < 4294967296) (rest : List Nat) :
    dec32 (enc32 n ++ rest) = some (n, rest) := by
  simp [enc32, dec32]
  omega

/-- Modelled from the spec: the fixed binary message encoding (the excluded
`bincode` serializer). One tag byte selects the variant, numeric fields are
4-byte little-endian, and the input payload is length-prefixed raw bytes. -/
def serializeMessage : Message → List Nat
  | Message.keepAlive => [0]
  | Message.syncRequest r => 1 :: enc32 r
  | Message.syncReply r => 2 :: enc32 r
  | Message.input f bs => 3 :: (enc32 f ++ enc32 bs.length ++ bs)
  | Message.inputAck f => 4 :: enc32 f
  | Message.qualityReport fa p => 5 :: (enc32 fa ++ enc32 p)

/-- Modelled from the spec: the fixed binary message decoding (the excluded
`bincode` deserializer). Returns `none` on any byte sequence that is not a
complete encoding of a message. -/
def deserializeMessage (l : List Nat) : Option Message :=
  match l with
  | 0 :: rest => if rest = [] then some Message.keepAlive else none
  | 1 :: rest =>
    match dec32 rest with
    | some (r, rest1) => if rest1 = [] then some (Message.syncRequest r) else none
    | none => none
  | 2 :: rest =>
    match dec32 rest with
    | some (r, rest1) => if rest1 = [] then some (Message.syncReply r) else none
    | none => none
  | 3 :: rest =>
    match dec32 rest with
    | some (f, rest1) =>
      match dec32 rest1 with
      | some (len, rest2) =>
        if rest2.length = len then some (Message.input f rest2) else none
      | none => none
    | none => none
  | 4 :: rest =>
    match dec32 rest with
    | some (f, rest1) => if rest1 = [] then some (Message.inputAck f) else none
    | none => none
  | 5 :: rest =>
    match dec32 rest with
    | some (fa, rest1) =>
      match dec32 rest1 with
      | some (p, rest2) => if rest2 = [] then some (Message.qualityReport fa p) else none
      | none => none
    | none => none
  | _ => none

/-- Modelled from the spec: `bincode::serialize` returns a fallible result;
per the spec, serialization of well-formed in-memory messages always
succeeds, so the model never returns `none`. -/
def bincodeSerialize (msg : Message) : Option (List Nat) :=
  some (serializeMessage msg)

/-- Embedding of `build_packet` (ggrs_socket.rs lines 97-99): serialize the
message and unwrap. The unwrap never panics because `bincodeSerialize`
always succeeds, so the embedding is total. -/
def build_packet (msg : Message) : List Nat :=
  serializeMessage msg

/-- Embedding of `deserialize_packet` (ggrs_socket.rs lines 101-103): keep
the peer id and deserialize the payload; the source's unwrap panic on a
malformed payload is modelled as `none`. -/
def deserialize_packet (pr : PeerId × List Nat) : Option (PeerId × Message) :=
  match deserializeMessage pr.2 with
  | some m => some (pr.1, m)
  | none => none

/-- Embedding of `NonBlockingSocket::receive_all_messages` (ggrs_socket.rs
lines 110-112 and 120-122), applied to the pairs returned by the runtime's
`receive()`: map `deserialize_packet` over them and collect; a panic inside
any `deserialize_packet` aborts the whole call, modelled as `none`. -/
def receive_all_messages : List (PeerId × List Nat) → Option (List (PeerId × Message))
  | [] => some []
  | pr :: rest =>
    match deserialize_packet pr, receive_all_messages rest with
    | some pm, some out => some (pm :: out)
    | _, _ => none

/-- Decoding inverts encoding on every well-formed message. -/
theorem deserialize_serialize (m : Message) (h : wfMessage m = true) :
    deserializeMessage (serializeMessage m) = some m := by
  cases m with
  | keepAlive => rfl
  | syncRequest r =>
    have hr : r < 4294967296 := by simpa [wfMessage] using h
    have hd : dec32 (enc32 r) = some (r, []) := by simpa using dec32_enc32 r hr []
    simp [serializeMessage, deserializeMessage, hd]
  | syncReply r =>
    have hr : r < 4294967296 := by simpa [wfMessage] using h
    have hd : dec32 (enc32 r) = some (r, []) := by simpa using dec32_enc32 r hr []
    simp [serializeMessage, deserializeMessage, hd]
  | input f bs =>
    simp only [wfMessage, Bool.and_eq_true, decide_eq_true_eq] at h
    obtain ⟨⟨hf, hl⟩, -⟩ := h
    simp [serializeMessage, deserializeMessage, List.append_assoc,
      dec32_enc32 f hf, dec32_enc32 bs.length hl]
  | inputAck f =>
    have hf : f < 4294967296 := by simpa [wfMessage] using h
    have hd : dec32 (enc32 f) = some (f, []) := by simpa using dec32_enc32 f hf []
    simp [serializeMessage, deserializeMessage, hd]
  | qualityReport fa p =>
    simp only [wfMessage, Bool.and_eq_true, decide_eq_true_eq] at h
    obtain ⟨hfa, hp⟩ := h
    have hd : dec32 (enc32 p) = some (p, []) := by simpa using dec32_enc32 p hp []
    simp [serializeMessage, deserializeMessage, dec32_enc32 fa hfa, hd]

/-- C5: deserializing the packet produced by serializing a well-formed
message yields the original pair back, for every peer id. -/
theorem deserialize_build_packet_roundtrip (p : PeerId) (m : Message)
    (h : wfMessage m = true) :
    deserialize_packet (p, build_packet m) = some (p, m) := by
  simp [deserialize_packet, build_packet, deserialize_serialize m h]

/-- C5 witness: a concrete quality-report message round-trips through the
packet codec at peer id 6. -/
theorem deserialize_build_packet_roundtrip_witness :
    wfMessage (Message.qualityReport 12 34) = true ∧
    deserialize_packet (6, build_packet (Message.qualityReport 12 34)) =
      some (6, Message.qualityReport 12 34) :=
  ⟨by decide, deserialize_build_packet_roundtrip 6 (Message.qualityReport 12 34) (by decide)⟩

/-- When every received packet deserializes, `receive_all_messages` succeeds
and returns, position by position, the peer id of the corresponding received
pair together with the decoded message. -/
theorem receive_all_sound (received : List (PeerId × List Nat))
    (h : ∀ pr ∈ received, (deserializeMessage pr.2).isSome = true) :
    ∃ out, receive_all_messages received = some out ∧
      out.length = received.length ∧
      ∀ (i : Nat) (pr : PeerId × List Nat), received[i]? = some pr →
        ∃ m, deserializeMessage pr.2 = some m ∧ out[i]? = some (pr.1, m) := by
  induction received with
  | nil =>
    refine ⟨[], rfl, rfl, ?_⟩
    intro i pr hpr
    simp at hpr
  | cons pr0 rest ih =>
    have h0 : (deserializeMessage pr0.2).isSome = true := h pr0 (by simp)
    obtain ⟨m0, hm0⟩ := Option.isSome_iff_exists.mp h0
    obtain ⟨out, hout, hlen, hpt⟩ := ih (fun pr hpr => h pr (by simp [hpr]))
    refine ⟨(pr0.1, m0) :: out, ?_, by simp [hlen], ?_⟩
    · simp [receive_all_messages, deserialize_packet, hm0, hout]
    · intro i pr hpr
      cases i with
      | zero =>
        simp only [List.getElem?_cons_zero, Option.some.injEq] at hpr
        subst hpr
        exact ⟨m0, hm0, by simp⟩
      | succ j =>
        simp only [List.getElem?_cons_succ] at hpr
        obtain ⟨m, hm, ho⟩ := hpt j pr hpr
        exact ⟨m, hm, by simpa using ho⟩

/-- If any received packet fails to deserialize, the whole
`receive_all_messages` call aborts. -/
theorem receive_all_fatal (received : List (PeerId × List Nat))
    (h : ∃ pr ∈ received, deserializeMessage pr.2 = none) :
    receive_all_messages received = none := by
  induction received with
  | nil => simp at h
  | cons pr0 rest ih =>
    obtain ⟨pr, hmem, hfail⟩ := h
    rcases List.mem_cons.mp hmem with rfl | hmem
    · simp [receive_all_messages, deserialize_packet, hfail]
    · rw [receive_all_messages, ih ⟨pr, hmem, hfail⟩]
      cases deserialize_packet pr0 <;> rfl

/-- C8: `receive_all_messages` returns exactly one entry per pair returned by
the underlying `receive()`, in the same order, keeping each pair's peer id
and replacing its packet by the deserialized message (stated under the
hypothesis that every packet deserializes; a failure is the fatal branch of
C6). -/
theorem receive_all_messages_pointwise (received : List (PeerId × List Nat))
    (h : ∀ pr ∈ received, (deserializeMessage pr.2).isSome = true) :
    ∃ out, receive_all_messages received = some out ∧
      out.length = received.length ∧
      ∀ (i : Nat) (pr : PeerId × List Nat), received[i]? = some pr →
        ∃ m, deserializeMessage pr.2 = some m ∧ out[i]? = some (pr.1, m) :=
  receive_all_sound received h

/-- C8 witness: two concretely encoded packets from peers 4 and 9 come back
as two pairs with the same peer ids and the decoded messages. -/
theorem receive_all_messages_pointwise_witness :
    ∃ out,
      receive_all_messages
        [(4, build_packet Message.keepAlive), (9, build_packet (Message.inputAck 7))] =
          some out ∧
      out.length =
        [(4, build_packet Message.keepAlive), (9, build_packet (Message.inputAck 7))].length ∧
      ∀ (i : Nat) (pr : PeerId × List Nat),
        [(4, build_packet Message.keepAlive),
          (9, build_packet (Message.inputAck 7))][i]? = some pr →
        ∃ m, deserializeMessage pr.2 = some m ∧ out[i]? = some (pr.1, m) :=
  receive_all_messages_pointwise
    [(4, build_packet Message.keepAlive), (9, build_packet (Message.inputAck 7))]
    (by decide)

/-- C6: serialization never fails inside `send_to` (the serializer succeeds
on every message and the sent packet is exactly its output); a received
packet that fails to deserialize aborts `receive_all_messages` as a whole
(the `none` of the model stands for the source's panic) rather than being
skipped; and on packets carrying the adapter's own encoding of well-formed
messages the fault branch is never taken. -/
theorem codec_failure_is_fatal (received : List (PeerId × List Nat)) :
    (∀ m : Message, bincodeSerialize m = some (build_packet m)) ∧
    ((∃ pr ∈ received, deserializeMessage pr.2 = none) →
      receive_all_messages received = none) ∧
    ((∀ pr ∈ received, ∃ m, wfMessage m = true ∧ pr.2 = build_packet m) →
      ∃ out, receive_all_messages received = some out) := by
  refine ⟨fun m => rfl, receive_all_fatal received, fun henc => ?_⟩
  have hall : ∀ pr ∈ received, (deserializeMessage pr.2).isSome = true := by
    intro pr hpr
    obtain ⟨m, hwf, hpk⟩ := henc pr hpr
    rw [hpk]
    simp [build_packet, deserialize_serialize m hwf]
  obtain ⟨out, hout, -⟩ := receive_all_sound received hall
  exact ⟨out, hout⟩

/-- C6 witness: a malformed two-byte packet aborts the receive loop, while a
packet produced by the adapter's own encoder is decoded. -/
theorem codec_failure_is_fatal_witness :
    receive_all_messages [(0, [9, 9])] = none ∧
    ∃ out, receive_all_messages [(1, build_packet Message.keepAlive)] = some out :=
  ⟨(codec_failure_is_fatal [(0, [9, 9])]).2.1 ⟨(0, [9, 9]), by decide, by decide⟩,
   (codec_failure_is_fatal [(1, build_packet Message.keepAlive)]).2.2
     (by
       intro pr hpr
       rw [List.mem_singleton] at hpr
       subst hpr
       exact ⟨Message.keepAlive, rfl, rfl⟩)⟩

/-- Modelled from the spec: one channel's delivery profile (spec section
4.1), owned by the excluded socket library; `reliable` is ordered and
retransmitted, `unreliable` unordered and best-effort. -/
structure ChannelConfig where
  ordered : Bool
  maxRetransmits : Option Nat
deriving DecidableEq

/-- Modelled from the spec: the reliable channel profile constructor. -/
def ChannelConfig.reliable : ChannelConfig := ⟨true, none⟩

/-- Modelled from the spec: the unreliable channel profile constructor. -/
def ChannelConfig.unreliable : ChannelConfig := ⟨false, some 0⟩

/-- Embedding of `ChannelConfig::ggrs` (ggrs_socket.rs lines 12-17): the
GGRS-suitable profile is the unreliable profile. -/
def ChannelConfig.ggrs : ChannelConfig := ChannelConfig.unreliable

/-- The channel-count typestate marker: the source expresses it as the
phantom type parameter `NoChannels`/`SingleChannel`/`MultipleChannels` of
`WebRtcSocketBuilder`; the embedding carries it as a data field. -/
inductive ChannelPlurality where
  | NoChannels : ChannelPlurality
  | SingleChannel : ChannelPlurality
  | MultipleChannels : ChannelPlurality
deriving DecidableEq

/-- Modelled from the spec: the builder's accumulated configuration (room
address, identity material, ordered channel sequence); the nostr identity
material is opaque and modelled as a `Nat`. -/
structure SocketConfig where
  roomUrl : String
  nostrKeys : Nat
  channels : List ChannelConfig
deriving DecidableEq

/-- The socket builder: accumulated config plus the typestate marker. -/
structure WebRtcSocketBuilder where
  config : SocketConfig
  channel_plurality : ChannelPlurality
deriving DecidableEq

/-- The typestate transition performed by one add-channel call: the three
source impls (ggrs_socket.rs lines 19-49) send `None→Single`,
`Single→Multiple` and `Multiple→Multiple`. -/
def nextPlurality : ChannelPlurality → ChannelPlurality
  | ChannelPlurality.NoChannels => ChannelPlurality.SingleChannel
  | ChannelPlurality.SingleChannel => ChannelPlurality.MultipleChannels
  | ChannelPlurality.MultipleChannels => ChannelPlurality.MultipleChannels

/-- Embedding of `WebRtcSocketBuilder::add_ggrs_channel` (ggrs_socket.rs
lines 19-49): push one GGRS channel config onto the accumulated sequence and
advance the typestate marker. -/
def add_ggrs_channel (b : WebRtcSocketBuilder) : WebRtcSocketBuilder :=
  { config := { b.config with channels := b.config.channels ++ [ChannelConfig.ggrs] },
    channel_plurality := nextPlurality b.channel_plurality }

/-- The typestate class a channel count belongs to. -/
def pluralityOfCount (k : Nat) : ChannelPlurality :=
  if k = 0 then ChannelPlurality.NoChannels
  else if k = 1 then ChannelPlurality.SingleChannel
  else ChannelPlurality.MultipleChannels

/-- One typestate step matches one increment of the channel count. -/
theorem nextPlurality_ofCount : ∀ k : Nat,
    nextPlurality (pluralityOfCount k) = pluralityOfCount (k + 1)
  | 0 => rfl
  | 1 => rfl
  | n + 2 => by
    have h2 : n + 2 ≠ 0 := by omega
    have h1 : n + 2 ≠ 1 := by omega
    have h3 : n + 2 + 1 ≠ 0 := by omega
    have h4 : n + 2 + 1 ≠ 1 := by omega
    simp [pluralityOfCount, nextPlurality, h1, h2, h3, h4]

/-- C7: each `add_ggrs_channel` call appends exactly one channel config and
advances the marker along `None→Single→Multiple→Multiple`; after `k` calls on
a fresh `NoChannels` builder the channel count is `k` and the marker is the
class of `k` (`None` for 0, `Single` for 1, `Multiple` for 2 or more), so
the marker always matches the length class of the channel sequence. -/
theorem add_ggrs_channel_typestate (b0 : WebRtcSocketBuilder)
    (hch : b0.config.channels = [])
    (hpl : b0.channel_plurality = ChannelPlurality.NoChannels) (k : Nat) :
    (∀ b : WebRtcSocketBuilder,
      (add_ggrs_channel b).config.channels = b.config.channels ++ [ChannelConfig.ggrs] ∧
      (add_ggrs_channel b).channel_plurality = nextPlurality b.channel_plurality) ∧
    (add_ggrs_channel^[k] b0).config.channels.length = k ∧
    (add_ggrs_channel^[k] b0).channel_plurality = pluralityOfCount k ∧
    (add_ggrs_channel^[k] b0).channel_plurality =
      pluralityOfCount (add_ggrs_channel^[k] b0).config.channels.length := by
  have key : ∀ n : Nat, (add_ggrs_channel^[n] b0).config.channels.length = n ∧
      (add_ggrs_channel^[n] b0).channel_plurality = pluralityOfCount n := by
    intro n
    induction n with
    | zero => simp [hch, hpl, pluralityOfCount]
    | succ j ihj =>
      rw [Function.iterate_succ_apply']
      refine ⟨by simp [add_ggrs_channel, ihj.1], ?_⟩
      show nextPlurality (add_ggrs_channel^[j] b0).channel_plurality = _
      rw [ihj.2, nextPlurality_ofCount]
  refine ⟨fun b => ⟨rfl, rfl⟩, (key k).1, (key k).2, ?_⟩
  rw [(key k).1, (key k).2]

/-- C7 witness: two add-channel calls on a fresh builder yield two channels
and the `MultipleChannels` marker. -/
theorem add_ggrs_channel_typestate_witness :
    (∀ b : WebRtcSocketBuilder,
      (add_ggrs_channel b).config.channels = b.config.channels ++ [ChannelConfig.ggrs] ∧
      (add_ggrs_channel b).channel_plurality = nextPlurality b.channel_plurality) ∧
    (add_ggrs_channel^[2]
      ⟨⟨"wss://example", 0, []⟩, ChannelPlurality.NoChannels⟩).config.channels.length = 2 ∧
    (add_ggrs_channel^[2]
      ⟨⟨"wss://example", 0, []⟩, ChannelPlurality.NoChannels⟩).channel_plurality =
        pluralityOfCount 2 ∧
    (add_ggrs_channel^[2]
      ⟨⟨"wss://example", 0, []⟩, ChannelPlurality.NoChannels⟩).channel_plurality =
      pluralityOfCount
        (add_ggrs_channel^[2]
          ⟨⟨"wss://example", 0, []⟩, ChannelPlurality.NoChannels⟩).config.channels.length :=
  add_ggrs_channel_typestate
    ⟨⟨"wss://example", 0, []⟩, ChannelPlurality.NoChannels⟩ rfl rfl 2

/-- Modelled from the spec: `WebRtcSocketBuilder::new` (spec section 4.2)
begins configuration for a room address and nostr identity material with no
channels and the `NoChannels` typestate. -/
def WebRtcSocketBuilder.new (room_url : String) (nostr_keys : Nat) :
    WebRtcSocketBuilder :=
  ⟨⟨room_url, nostr_keys, []⟩, ChannelPlurality.NoChannels⟩

/-- Modelled from the spec: `add_channel` (spec section 4.2) is a pure append
of one channel config that advances the typestate marker by one class. -/
def WebRtcSocketBuilder.add_channel (b : WebRtcSocketBuilder)
    (c : ChannelConfig) : WebRtcSocketBuilder :=
  { config := { b.config with channels := b.config.channels ++ [c] },
    channel_plurality := nextPlurality b.channel_plurality }

/-- Modelled from the spec: the built socket runtime retains its accumulated
configuration (spec section 3, SocketRuntime lifecycle). -/
structure BuiltSocket where
  config : SocketConfig
deriving DecidableEq

/-- Modelled from the spec: the unstarted message-loop task returned by
`build`, determined by the same configuration (spec section 4.4). -/
structure MessageLoopFuture where
  config : SocketConfig
deriving DecidableEq

/-- Modelled from the spec: `build` (spec section 4.2) consumes the builder
and produces the socket runtime plus the unstarted message-loop task; on
builders reached through at least one add-channel call it always succeeds. -/
def WebRtcSocketBuilder.build (b : WebRtcSocketBuilder) :
    BuiltSocket × MessageLoopFuture :=
  (⟨b.config⟩, ⟨b.config⟩)

/-- Embedding of `WebRtcSocket::new_ggrs` (ggrs_socket.rs lines 59-66): the
builder chain `new(room_url, keys).add_channel(ChannelConfig::ggrs()).build()`. -/
def WebRtcSocket.new_ggrs (room_url : String) (nostr_keys : Nat) :
    BuiltSocket × MessageLoopFuture :=
  ((WebRtcSocketBuilder.new room_url nostr_keys).add_channel ChannelConfig.ggrs).build

/-- C10: `ChannelConfig::ggrs()` is exactly `ChannelConfig::unreliable()`,
and `WebRtcSocket::new_ggrs` produces exactly the pair of the builder chain
`new(room_url, keys).add_channel(ChannelConfig::unreliable()).build()`: the
GGRS convenience constructors are definitional shorthands. -/
theorem ggrs_constructors_are_shorthands :
    ChannelConfig.ggrs = ChannelConfig.unreliable ∧
    ∀ (room_url : String) (nostr_keys : Nat),
      WebRtcSocket.new_ggrs room_url nostr_keys =
        ((WebRtcSocketBuilder.new room_url nostr_keys).add_channel
          ChannelConfig.unreliable).build :=
  ⟨rfl, fun _ _ => rfl⟩

/-- Modelled from the spec: the keys of the engine's type-keyed resource
container (spec section 6): one `MatchboxSocket<C>` slot per channel-count
class `C`, plus arbitrarily many unrelated resource types indexed by a tag. -/
inductive ResourceKey where
  | matchboxSocket : ChannelPlurality → ResourceKey
  | otherType : Nat → ResourceKey
deriving DecidableEq

/-- Modelled from the spec: stored resource values: a `MatchboxSocket`
wrapping a built socket runtime of some channel-count class, or an unrelated
resource's opaque payload. -/
inductive ResourceValue where
  | socket : ChannelPlurality → BuiltSocket → ResourceValue
  | otherData : Nat → ResourceValue
deriving DecidableEq

/-- Modelled from the spec: the engine world restricted to its type-keyed
resource store, a partial map from resource keys to values. -/
def World : Type := ResourceKey → Option ResourceValue

/-- Modelled from the spec: `insert_resource` replaces whatever value the key
held before. -/
def insert_resource (w : World) (k : ResourceKey) (v : ResourceValue) : World :=
  fun q => if q = k then some v else w q

/-- Modelled from the spec: `remove_resource` deletes exactly the given key. -/
def remove_resource (w : World) (k : ResourceKey) : World :=
  fun q => if q = k then none else w q

/-- Embedding of `From<WebRtcSocketBuilder<C>> for MatchboxSocket<C>`
(lib.rs lines 76-88): build the socket, spawn the message-loop future on the
task pool (a detached background effect outside this embedding), and wrap
the runtime as the resource value. -/
def matchboxSocketFrom (b : WebRtcSocketBuilder) : ResourceValue :=
  ResourceValue.socket b.channel_plurality b.build.1

/-- Embedding of `Command for OpenSocket<C>` (lib.rs lines 93-97): insert the
`MatchboxSocket<C>` resource built from the stored builder, where `C` is the
builder's channel-count class. -/
def openSocketCommand (b : WebRtcSocketBuilder) (w : World) : World :=
  insert_resource w (ResourceKey.matchboxSocket b.channel_plurality)
    (matchboxSocketFrom b)

/-- Embedding of `Command for CloseSocket<C>` (lib.rs lines 114-118): remove
the `MatchboxSocket<C>` resource. -/
def closeSocketCommand (c : ChannelPlurality) (w : World) : World :=
  remove_resource w (ResourceKey.matchboxSocket c)

/-- C9: opening a socket stores the `MatchboxSocket` resource built from the
builder at the key of the builder's channel-count class, replacing any prior
value there; closing removes exactly the key of its class; both commands
leave every other key — in particular every `MatchboxSocket` slot of a
different class — unchanged. -/
theorem socket_commands_frame (b : WebRtcSocketBuilder) (c : ChannelPlurality)
    (w : World) :
    openSocketCommand b w (ResourceKey.matchboxSocket b.channel_plurality) =
      some (matchboxSocketFrom b) ∧
    (∀ k : ResourceKey, k ≠ ResourceKey.matchboxSocket b.channel_plurality →
      openSocketCommand b w k = w k) ∧
    (∀ c2 : ChannelPlurality, c2 ≠ b.channel_plurality →
      openSocketCommand b w (ResourceKey.matchboxSocket c2) =
        w (ResourceKey.matchboxSocket c2)) ∧
    closeSocketCommand c w (ResourceKey.matchboxSocket c) = none ∧
    (∀ k : ResourceKey, k ≠ ResourceKey.matchboxSocket c →
      closeSocketCommand c w k = w k) ∧
    (∀ c2 : ChannelPlurality, c2 ≠ c →
      closeSocketCommand c w (ResourceKey.matchboxSocket c2) =
        w (ResourceKey.matchboxSocket c2)) := by
  refine ⟨?_, ?_, ?_, ?_, ?_, ?_⟩
  · simp [openSocketCommand, insert_resource]
  · intro k hk
    simp [openSocketCommand, insert_resource, hk]
  · intro c2 hc
    simp [openSocketCommand, insert_resource, hc]
  · simp [closeSocketCommand, remove_resource]
  · intro k hk
    simp [closeSocketCommand, remove_resource, hk]
  · intro c2 hc
    simp [closeSocketCommand, remove_resource, hc]

/-- C9 witness: on the empty world, opening a single-channel socket stores
its resource, leaves an unrelated key and the multiple-channel slot empty,
and closing the multiple-channel slot leaves the single-channel slot alone. -/
theorem socket_commands_frame_witness :
    openSocketCommand
      ⟨⟨"wss://example", 0, [ChannelConfig.ggrs]⟩, ChannelPlurality.SingleChannel⟩
      (fun _ => none) (ResourceKey.matchboxSocket ChannelPlurality.SingleChannel) =
      some (matchboxSocketFrom
        ⟨⟨"wss://example", 0, [ChannelConfig.ggrs]⟩, ChannelPlurality.SingleChannel⟩) ∧
    openSocketCommand
      ⟨⟨"wss://example", 0, [ChannelConfig.ggrs]⟩, ChannelPlurality.SingleChannel⟩
      (fun _ => none) (ResourceKey.otherType 5) = none ∧
    openSocketCommand
      ⟨⟨"wss://example", 0, [ChannelConfig.ggrs]⟩, ChannelPlurality.SingleChannel⟩
      (fun _ => none) (ResourceKey.matchboxSocket ChannelPlurality.MultipleChannels) =
      none ∧
    closeSocketCommand ChannelPlurality.MultipleChannels
      (fun _ => none) (ResourceKey.matchboxSocket ChannelPlurality.SingleChannel) = none :=
  ⟨(socket_commands_frame _ ChannelPlurality.MultipleChannels (fun _ => none)).1,
   (socket_commands_frame
      ⟨⟨"wss://example", 0, [ChannelConfig.ggrs]⟩, ChannelPlurality.SingleChannel⟩
      ChannelPlurality.MultipleChannels (fun _ => none)).2.1
     (ResourceKey.otherType 5) (by decide),
   (socket_commands_frame
      ⟨⟨"wss://example", 0, [ChannelConfig.ggrs]⟩, ChannelPlurality.SingleChannel⟩
      ChannelPlurality.MultipleChannels (fun _ => none)).2.2.1
     ChannelPlurality.MultipleChannels (by decide),
   (socket_commands_frame
      ⟨⟨"wss://example", 0, [ChannelConfig.ggrs]⟩, ChannelPlurality.SingleChannel⟩
      ChannelPlurality.MultipleChannels (fun _ => none)).2.2.2.2.2
     ChannelPlurality.SingleChannel (by decide)⟩
